import Mathlib

/-!
Shallow embedding, in Lean 4, of the decision/display pipeline of the
stockreco frontend (files `_RecoPage.jsx`, `OptionsRecommendations.jsx`,
`PayoffModal.jsx`, `PnlSimulatorModal.jsx`).

Modelling conventions:
* A JavaScript number that may be missing or `NaN` is an `Option ℚ`:
  `none` stands for a missing field or a non-numeric value (where
  `Number(...)` yields `NaN`), `some q` for the finite value `q`.
  Finite IEEE doubles are idealized as exact rationals.
* JS truthiness on numbers (`0` and `NaN` are falsy) and the `||`
  operator are modelled explicitly (`numTv`, `numOr`).
* Strings are Lean `String`s; the handful of string methods the source
  uses (`trim`, `toUpperCase`, `split("-")`, `padStart(2,"0")`,
  `substring`, first-occurrence `replace`) are defined below over the
  character list, following the ECMAScript behaviour on the inputs the
  pipeline feeds them.
-/

namespace StockReco

/-- JS truthiness of a (possibly missing / NaN) number: `0` and `NaN` are falsy. -/
def numTv : Option ℚ → Bool
  | none => false
  | some q => q != 0

/-- JS `a || b` on numbers, where `b` is an always-defined fallback:
the value of `a` when `a` is truthy, otherwise `b`. -/
def numOr (a : Option ℚ) (b : ℚ) : ℚ :=
  match a with
  | none => b
  | some q => if q = 0 then b else q

/-- JS `a || b` on two possibly-missing numbers, keeping missingness. -/
def jsOrNum (a b : Option ℚ) : Option ℚ :=
  if numTv a then a else b

/-- Floor of a rational as an integer (`q.num.fdiv q.den` is exact since
the denominator is positive). -/
def ratFloorZ (q : ℚ) : ℤ := q.num.fdiv q.den

/-- JS `Math.round`: round half toward positive infinity, i.e.
`floor (q + 1/2)`; ECMAScript `toFixed` resolves ties the same way
(it picks the larger candidate). -/
def jsRound (q : ℚ) : ℤ := ratFloorZ (q + 1 / 2)

/-- JS `Number(x.toFixed(2))` on the rational model: round to two decimal
places, ties toward positive infinity. -/
def round2 (q : ℚ) : ℚ := (jsRound (100 * q) : ℚ) / 100

/-- JS truthiness of a possibly-missing string: `null`, `undefined` and the
empty string are falsy. -/
def strTv : Option String → Bool
  | none => false
  | some s => s != ""

/-- ASCII upper-casing, as `String.prototype.toUpperCase` acts on the
ASCII strings this pipeline handles. -/
def jsUpper (s : String) : String := String.mk (s.toList.map Char.toUpper)

/-- The JS whitespace characters relevant to `String.prototype.trim` here. -/
def isWsChar (c : Char) : Bool :=
  c == ' ' || c == '\t' || c == '\n' || c == '\r'

/-- JS `String.prototype.trim`. -/
def jsTrim (s : String) : String :=
  String.mk (((s.toList.dropWhile isWsChar).reverse.dropWhile isWsChar).reverse)

/-- Helper for `jsSplitDash`: accumulate the current chunk (reversed). -/
def splitDashAux : List Char → List Char → List String
  | [], cur => [String.mk cur.reverse]
  | c :: rest, cur =>
    if c = '-' then String.mk cur.reverse :: splitDashAux rest []
    else splitDashAux rest (c :: cur)

/-- JS `s.split("-")`. -/
def jsSplitDash (s : String) : List String := splitDashAux s.toList []

/-- JS `s.padStart(2, "0")`. -/
def padStart2 (s : String) : String :=
  String.mk (List.replicate (2 - s.toList.length) '0') ++ s

/-- JS `s.substring(a, b)` for `a ≤ b` (the only way the source calls it). -/
def jsSubstring (s : String) (a b : Nat) : String :=
  String.mk ((s.toList.drop a).take (b - a))

/-- Character-list prefix test (used by the first-occurrence replace). -/
def startsWithChars : List Char → List Char → Bool
  | [], _ => true
  | _ :: _, [] => false
  | p :: ps, c :: cs => p == c && startsWithChars ps cs

/-- Helper for `replaceFirstStr` over character lists. -/
def replaceFirstAux (pat repl : List Char) : List Char → List Char
  | [] => []
  | c :: rest =>
    if startsWithChars pat (c :: rest) then repl ++ (c :: rest).drop pat.length
    else c :: replaceFirstAux pat repl rest

/-- JS `s.replace(pat, repl)` with a string pattern: unlike Lean's
`String.replace`, ECMAScript replaces only the first occurrence. -/
def replaceFirstStr (s pat repl : String) : String :=
  String.mk (replaceFirstAux pat.toList repl.toList s.toList)

/-! ## Symbol Resolver (`guessOptionSymbol`, `_RecoPage.jsx`) -/

/-- The candidate fields `guessOptionSymbol` reads.  Each is optional:
`none` models a missing JSON field. -/
structure OptRow where
  symbol : Option String
  strike : Option ℚ
  side : Option String
  expiry : Option String
deriving DecidableEq

/-- The month-name table of `guessOptionSymbol`. -/
def monthNames : List String :=
  ["JAN", "FEB", "MAR", "APR", "MAY", "JUN",
   "JUL", "AUG", "SEP", "OCT", "NOV", "DEC"]

/-- Embedding of `guessOptionSymbol` (`_RecoPage.jsx`).  The `jsDateDMY`
parameter models the host-dependent `new Date(expStr)` fallback branch,
returning `getDate`, `getMonth` (0-based) and `getFullYear` when the host
can parse the string; none of the verified claims exercises that branch,
since every expiry with exactly two dashes takes the three-token branch. -/
def guessOptionSymbol (jsDateDMY : String → Option (Nat × Nat × Nat))
    (r : OptRow) : Option String :=
  if !(strTv r.symbol) || !(numTv r.strike) || !(strTv r.side) || !(strTv r.expiry) then
    none
  else
    let expStr0 := jsUpper (jsTrim (r.expiry.getD ""))
    let parts := jsSplitDash expStr0
    let expOpt : Option String :=
      if parts.length = 3 then
        -- the "06-JAN-2026" -> "06JAN26" branch
        let day := padStart2 (parts.getD 0 "")
        let month := jsSubstring (parts.getD 1 "") 0 3
        let year := jsSubstring (parts.getD 2 "") 2 4
        some (day ++ month ++ year)
      else
        match jsDateDMY expStr0 with
        | none => none
        | some (d, m0, y) =>
          some (padStart2 (toString d) ++ monthNames.getD m0 "" ++
            jsSubstring (toString y) 2 4)
    match expOpt with
    | none => none
    | some expStr =>
      let sym := replaceFirstStr (jsUpper (r.symbol.getD "")) ".NS" ""
      let strikeStr := toString (jsRound (r.strike.getD 0))
      let side := jsUpper (r.side.getD "")
      some (sym ++ expStr ++ strikeStr ++ side)

/-- The NIFTY 26100 CE candidate with the `DD-MON-YYYY` expiry spelling. -/
def niftyRowDmy : OptRow :=
  { symbol := some "NIFTY", strike := some 26100,
    side := some "CE", expiry := some "06-JAN-2026" }

/-- The same logical candidate with the ISO `YYYY-MM-DD` expiry spelling. -/
def niftyRowIso : OptRow :=
  { symbol := some "NIFTY", strike := some 26100,
    side := some "CE", expiry := some "2026-01-06" }

/-- Claim C1: symbol resolution is claimed format-invariant across the two
expiry spellings.  Evaluating the embedded `guessOptionSymbol` shows it is
not: the `DD-MON-YYYY` spelling yields the canonical
`"NIFTY06JAN2626100CE"`, but the ISO spelling `"2026-01-06"` also splits
into three dash-separated tokens, so it takes the `DD-MON-YYYY` branch and
yields `"NIFTY20260126100CE"` (year taken as the day, `substring(2,4)` of
`"06"` empty), never reaching the `new Date` fallback that would have
normalized it.  The result holds for every host date parser. -/
theorem c1_iso_expiry_mangled (jsDateDMY : String → Option (Nat × Nat × Nat)) :
    guessOptionSymbol jsDateDMY niftyRowDmy = some "NIFTY06JAN2626100CE" ∧
    guessOptionSymbol jsDateDMY niftyRowIso = some "NIFTY20260126100CE" ∧
    ("NIFTY20260126100CE" : String) ≠ "NIFTY06JAN2626100CE" := by
  refine ⟨by with_unfolding_all rfl, by with_unfolding_all rfl, by decide⟩

/-! ## Expiry payoff simulator (`computePayoffSeries`, `_RecoPage.jsx`) -/

/-- One point of the payoff series: underlying price and profit/loss. -/
structure PayoffPoint where
  S : ℚ
  pnl : ℚ
deriving DecidableEq

/-- The price-window selection of `computePayoffSeries`, extracted as its
own definition.  `S0` is `Number(spot) || K || 0` as in the source; the
`Number.isFinite(S0)` checks of the source are vacuous here because after
`||` the value is an actual number. -/
def payoffWindow (strike spot atrPoints : Option ℚ) : ℚ × ℚ :=
  let S0 : ℚ := numOr spot (numOr strike 0)
  let K : ℚ := strike.getD 0
  if (atrPoints.map fun a => decide (0 < a)).getD false && decide (0 < S0) then
    (max 0 (S0 - 2.2 * atrPoints.getD 0), S0 + 2.2 * atrPoints.getD 0)
  else if 0 < S0 then
    (max 0 (S0 * 0.9), S0 * 1.1)
  else
    (max 0 (K * 0.9), K * 1.1)

/-- Embedding of `computePayoffSeries` (`_RecoPage.jsx`).  The guard of the
source is `!Number.isFinite(K) || !Number.isFinite(prem) || prem <= 0`;
note it does not require `K > 0`. -/
def computePayoffSeries (side : String) (strike spot premium atrPoints : Option ℚ) :
    List PayoffPoint :=
  match strike, premium with
  | some K, some prem =>
    if prem ≤ 0 then []
    else
      let w := payoffWindow strike spot atrPoints
      let low := w.1
      let high := w.2
      let step := (high - low) / 120
      (List.range 121).map fun (i : ℕ) =>
        let S := low + (i : ℚ) * step
        let pnl := if jsUpper side = "CE" then max 0 (S - K) - prem
                   else max 0 (K - S) - prem
        { S := round2 S, pnl := round2 pnl }
  | _, _ => []

/-- The breakeven computation of `PayoffModal.jsx`:
`side.toUpperCase() === "CE" ? strike + premium : strike - premium`. -/
def breakeven (side : String) (strike premium : ℚ) : ℚ :=
  if jsUpper side = "CE" then strike + premium else strike - premium

/-- The window-selection rule as the claim words it (for comparison with
`payoffWindow`): the reference spot `S0` is "known" when the spot input is
present, and when it is not, the priority falls through to the
`[0.9K, 1.1K]` window even if the ATR is known and positive. -/
def claimWindow (k : ℚ) (spot atrPoints : Option ℚ) : ℚ × ℚ :=
  match atrPoints, spot with
  | some a, some s0 =>
    if 0 < a then (max 0 (s0 - 2.2 * a), s0 + 2.2 * a)
    else (max 0 (s0 * 0.9), s0 * 1.1)
  | none, some s0 => (max 0 (s0 * 0.9), s0 * 1.1)
  | _, none => (max 0 (k * 0.9), k * 1.1)

/-- The window-selection rule as amended: the reference spot is first
defaulted to the strike when missing or zero, and the priority
(ATR window, then spot window, then strike window) is applied to that
defaulted value. -/
def amendedWindow (k : ℚ) (spot atrPoints : Option ℚ) : ℚ × ℚ :=
  let S0 : ℚ := match spot with
    | none => k
    | some s => if s = 0 then k else s
  match atrPoints with
  | some a =>
    if 0 < a ∧ 0 < S0 then (max 0 (S0 - 2.2 * a), S0 + 2.2 * a)
    else if 0 < S0 then (max 0 (S0 * 0.9), S0 * 1.1)
    else (max 0 (k * 0.9), k * 1.1)
  | none =>
    if 0 < S0 then (max 0 (S0 * 0.9), S0 * 1.1)
    else (max 0 (k * 0.9), k * 1.1)

/-- Claim C3 counterexample: the claim says the series is empty whenever
the strike is not a finite positive number, but the guard of
`computePayoffSeries` only checks the premium for positivity: with
`K = 0` (not positive) and premium `120` the series still has 121
points. -/
theorem c3_counterexample :
    (computePayoffSeries "CE" (some (0 : ℚ)) none (some 120) none).length = 121 ∧
    computePayoffSeries "CE" (some (0 : ℚ)) none (some 120) none ≠ [] := by
  have hl : (computePayoffSeries "CE" (some (0 : ℚ)) none (some 120) none).length = 121 := by
    with_unfolding_all rfl
  refine ⟨hl, fun h => ?_⟩
  rw [h] at hl
  exact absurd hl (by simp)

/-- Claim C3, amended: the series is empty exactly when the strike is
missing/non-numeric, or the premium is missing/non-numeric, or the premium
is nonpositive.  A zero or negative (finite) strike does not empty the
series. -/
theorem c3_amended (side : String) (strike spot premium atrPoints : Option ℚ) :
    computePayoffSeries side strike spot premium atrPoints = [] ↔
      strike = none ∨ premium = none ∨ ∃ p, premium = some p ∧ p ≤ 0 := by
  match strike, premium with
  | none, _ =>
    simp [computePayoffSeries]
  | some K, none =>
    simp [computePayoffSeries]
  | some K, some p =>
    by_cases hp : p ≤ 0
    · simp [computePayoffSeries, hp]
    · have hl : (computePayoffSeries side (some K) spot (some p) atrPoints).length = 121 := by
        simp only [computePayoffSeries, if_neg hp, List.length_map, List.length_range]
      constructor
      · intro h
        rw [h] at hl
        exact absurd hl (by simp)
      · rintro (h | h | ⟨q, hq, hq2⟩)
        · exact absurd h (by simp)
        · exact absurd h (by simp)
        · cases hq
          exact absurd hq2 hp

/-- Helper: with a present strike, the window `computePayoffSeries` uses is
exactly the amended-priority window (spot defaulted to the strike when
missing or zero). -/
theorem payoffWindow_eq_amended (k : ℚ) (spot atr : Option ℚ) :
    payoffWindow (some k) spot atr = amendedWindow k spot atr := by
  by_cases hk0 : k = 0
  all_goals cases atr with
  | none =>
    cases spot with
    | none =>
      by_cases hs : 0 < k <;> simp [payoffWindow, amendedWindow, numOr, hk0, hs]
    | some s =>
      by_cases h0 : s = 0
      · by_cases hs : 0 < k <;> simp [payoffWindow, amendedWindow, numOr, hk0, h0, hs]
      · by_cases hs : 0 < s <;> simp [payoffWindow, amendedWindow, numOr, hk0, h0, hs]
  | some a =>
    cases spot with
    | none =>
      by_cases ha : 0 < a <;> by_cases hs : 0 < k <;>
        simp [payoffWindow, amendedWindow, numOr, hk0, ha, hs]
    | some s =>
      by_cases h0 : s = 0
      · by_cases ha : 0 < a <;> by_cases hs : 0 < k <;>
          simp [payoffWindow, amendedWindow, numOr, hk0, h0, ha, hs]
      · by_cases ha : 0 < a <;> by_cases hs : 0 < s <;>
          simp [payoffWindow, amendedWindow, numOr, hk0, h0, ha, hs]

/-- Claim C4 counterexample: with the spot absent but the ATR known and
positive, the claim priority gives the strike window `[0.9K, 1.1K]`
(the ATR branch requires a known reference spot), yet the code defaults
`S0` to the strike and still takes the ATR branch: for strike 24500,
ATR 220 and premium 120 the code samples `[24016, 24984]`, not
`[22050, 26950]`. -/
theorem c4_counterexample :
    payoffWindow (some 24500) none (some 220) = (24016, 24984) ∧
    claimWindow 24500 none (some 220) = (22050, 26950) ∧
    payoffWindow (some 24500) none (some 220) ≠ claimWindow 24500 none (some 220) ∧
    (computePayoffSeries "CE" (some 24500) none (some 120) (some 220)).head? =
      some { S := 24016, pnl := -120 } := by
  refine ⟨by with_unfolding_all rfl, by with_unfolding_all rfl, ?_, by with_unfolding_all rfl⟩
  intro h
  rw [show payoffWindow (some 24500) none (some 220) = (24016, 24984)
        from by with_unfolding_all rfl,
      show claimWindow 24500 none (some 220) = (22050, 26950)
        from by with_unfolding_all rfl] at h
  have := congrArg Prod.fst h
  norm_num at this

/-- Claim C4, amended: the reference spot is first defaulted to the strike
when it is missing, non-numeric, or zero; the window priority (ATR window
around the defaulted spot, else relative window around the defaulted spot,
else relative window around the strike, lower bound clamped at zero) is
then applied, and the 121 sample prices of every non-empty series run
evenly across exactly that window. -/
theorem c4_amended (side : String) (strike spot prem atr : Option ℚ) (k p : ℚ)
    (hK : strike = some k) (hP : prem = some p) (hp : 0 < p) :
    payoffWindow strike spot atr = amendedWindow k spot atr ∧
    (computePayoffSeries side strike spot prem atr).map PayoffPoint.S =
      (List.range 121).map (fun (i : ℕ) =>
        round2 ((payoffWindow strike spot atr).1 +
          (i : ℚ) * (((payoffWindow strike spot atr).2 -
            (payoffWindow strike spot atr).1) / 120))) := by
  subst hK hP
  refine ⟨payoffWindow_eq_amended k spot atr, ?_⟩
  simp only [computePayoffSeries, if_neg (not_le.mpr hp), List.map_map]
  rfl

/-- Witness for `c4_amended` at the concrete C5 example inputs. -/
theorem c4_amended_witness :
    payoffWindow (some 24500) (some 24500) (some 220) =
      amendedWindow 24500 (some 24500) (some 220) ∧
    (computePayoffSeries "CE" (some 24500) (some 24500) (some 120) (some 220)).map
        PayoffPoint.S =
      (List.range 121).map (fun (i : ℕ) =>
        round2 ((payoffWindow (some 24500) (some 24500) (some 220)).1 +
          (i : ℚ) * (((payoffWindow (some 24500) (some 24500) (some 220)).2 -
            (payoffWindow (some 24500) (some 24500) (some 220)).1) / 120))) :=
  c4_amended "CE" (some 24500) (some 24500) (some 120) (some 220) 24500 120
    rfl rfl (by norm_num)

set_option maxRecDepth 4000 in
/-- Claim C5: every non-empty payoff series has exactly 121 samples, the
i-th sample lies at `low + i * (high - low) / 120` with payoff
`max 0 (S - K) - P` for CE and `max 0 (K - S) - P` otherwise, both rounded
to two decimals; the breakeven (computed in `PayoffModal.jsx`) is `K + P`
for CE and `K - P` for PE; and at the spec example (CE, strike 24500,
spot 24500, premium 120, ATR 220) the window is `[24016, 24984]`, the
sample at the spot (index 60) has payoff `-120`, and the breakeven is
`24620`. -/
theorem c5_series_points (side : String) (strike spot prem atr : Option ℚ) (k p : ℚ)
    (hK : strike = some k) (hP : prem = some p) (hp : 0 < p) :
    (computePayoffSeries side strike spot prem atr).length = 121 ∧
    (∀ i : ℕ, i < 121 →
      (computePayoffSeries side strike spot prem atr)[i]? =
        some { S := round2 ((payoffWindow strike spot atr).1 + (i : ℚ) *
                 (((payoffWindow strike spot atr).2 -
                   (payoffWindow strike spot atr).1) / 120)),
               pnl := round2 (if jsUpper side = "CE"
                  then max 0 (((payoffWindow strike spot atr).1 + (i : ℚ) *
                    (((payoffWindow strike spot atr).2 -
                      (payoffWindow strike spot atr).1) / 120)) - k) - p
                  else max 0 (k - ((payoffWindow strike spot atr).1 + (i : ℚ) *
                    (((payoffWindow strike spot atr).2 -
                      (payoffWindow strike spot atr).1) / 120))) - p) }) ∧
    breakeven "CE" k p = k + p ∧
    breakeven "PE" k p = k - p ∧
    payoffWindow (some 24500) (some 24500) (some 220) = (24016, 24984) ∧
    (computePayoffSeries "CE" (some 24500) (some 24500) (some 120) (some 220))[60]? =
      some { S := 24500, pnl := -120 } ∧
    breakeven "CE" 24500 120 = 24620 := by
  subst hK hP
  refine ⟨?_, ?_, ?_, ?_, by with_unfolding_all rfl, by with_unfolding_all rfl,
    by with_unfolding_all rfl⟩
  · simp only [computePayoffSeries, if_neg (not_le.mpr hp), List.length_map,
      List.length_range]
  · intro i hi
    simp only [computePayoffSeries, if_neg (not_le.mpr hp), List.getElem?_map,
      List.getElem?_range hi]
    rfl
  · simp [breakeven, show jsUpper "CE" = "CE" from rfl]
  · simp [breakeven, show jsUpper "PE" = "PE" from rfl]

/-- Witness for `c5_series_points` at the concrete spec-example inputs. -/
theorem c5_series_points_witness :
    (computePayoffSeries "CE" (some 24500) (some 24500) (some 120) (some 220)).length =
      121 :=
  (c5_series_points "CE" (some 24500) (some 24500) (some 120) (some 220) 24500 120
    rfl rfl (by norm_num)).1

/-! ## Scenario P&L simulator (`PnlSimulatorModal.jsx`) -/

/-- The candidate fields `PnlSimulatorModal` reads. -/
structure PnlRow where
  spot : Option ℚ
  underlying_ltp : Option ℚ
  underlyingLtp : Option ℚ
  entry_price : Option ℚ
  ltp : Option ℚ
  delta : Option ℚ
  diag_gamma : Option ℚ
deriving DecidableEq

/-- A live quote as consumed by the modals: `ok` plus optional levels. -/
structure Quote where
  ok : Bool
  ltp : Option ℚ
  delta : Option ℚ
  gamma : Option ℚ
deriving DecidableEq

/-- One row of the scenario table: relative move, underlying price,
estimated option price, profit/loss and profit/loss percent. -/
structure ScenarioRow where
  pct : ℚ
  S : ℚ
  priceEst : ℚ
  pnl : ℚ
  pnlPct : ℚ
deriving DecidableEq

/-- The fixed relative-move ladder of `PnlSimulatorModal`. -/
def scenarioSteps : List ℚ :=
  [-0.02, -0.015, -0.01, -0.005, 0, 0.005, 0.01, 0.015, 0.02]

/-- JS `quote?.ok ? quote.x : fallback`: the quote field when a quote is
present and marked ok, the row fallback otherwise. -/
def quoteSel (quote : Option Quote) (f : Quote → Option ℚ) (fallback : Option ℚ) :
    Option ℚ :=
  match quote with
  | some q => if q.ok then f q else fallback
  | none => fallback

/-- Embedding of the `table` computation of `PnlSimulatorModal.jsx`.  The
source also returns `[]` when the whole row object is null; we model a
present row.  `spot` is `Number(row.spot || row.underlying_ltp ||
row.underlyingLtp)`, `p0`, `delta`, `gamma` are `Number(x || 0)` of the
quote-or-row values, and the guard is `!spot || !entry || !p0`. -/
def pnlTable (row : PnlRow) (quote : Option Quote) : List ScenarioRow :=
  let spotOpt := jsOrNum row.spot (jsOrNum row.underlying_ltp row.underlyingLtp)
  let p0 := numOr (quoteSel quote Quote.ltp row.ltp) 0
  let delta := numOr (quoteSel quote Quote.delta row.delta) 0
  let gamma := numOr (quoteSel quote Quote.gamma row.diag_gamma) 0
  if !(numTv spotOpt) || !(numTv row.entry_price) || p0 == 0 then []
  else
    let spot := spotOpt.getD 0
    let entry := row.entry_price.getD 0
    scenarioSteps.map fun pct =>
      let S := spot * (1 + pct)
      let dS := S - spot
      let priceEst := p0 + delta * dS + 0.5 * gamma * dS * dS
      let pnl := priceEst - entry
      { pct := pct, S := S, priceEst := priceEst, pnl := pnl,
        pnlPct := pnl / entry * 100 }

/-- The concrete scenario row of the spec example: spot 24500, entry 116,
row LTP 120, delta 0.5, gamma 0.0005, no live quote. -/
def pnlExampleRow : PnlRow :=
  { spot := some 24500, underlying_ltp := none, underlyingLtp := none,
    entry_price := some 116, ltp := some 120,
    delta := some 0.5, diag_gamma := some 0.0005 }

/-- Claim C6: with non-zero spot, entry and current price the table is the
nine-move ladder in order, each row following the delta/gamma Taylor
formula with delta and gamma defaulting to 0; the spec example row at
move +1% estimates the option at 257.51 and the profit at 141.51 (to two
decimals); and a missing or zero spot, entry, or current price yields an
empty table. -/
theorem c6_scenario_table (row : PnlRow) (quote : Option Quote) (s e : ℚ)
    (hs : jsOrNum row.spot (jsOrNum row.underlying_ltp row.underlyingLtp) = some s)
    (hs0 : s ≠ 0) (he : row.entry_price = some e) (he0 : e ≠ 0)
    (hp0 : numOr (quoteSel quote Quote.ltp row.ltp) 0 ≠ 0) :
    (pnlTable row quote).map ScenarioRow.pct = scenarioSteps ∧
    (pnlTable row quote).length = 9 ∧
    (∀ i : ℕ,
      (pnlTable row quote)[i]? = (scenarioSteps[i]?).map fun pct =>
        { pct := pct, S := s * (1 + pct),
          priceEst := numOr (quoteSel quote Quote.ltp row.ltp) 0 +
            numOr (quoteSel quote Quote.delta row.delta) 0 * (s * (1 + pct) - s) +
            0.5 * numOr (quoteSel quote Quote.gamma row.diag_gamma) 0 *
              (s * (1 + pct) - s) * (s * (1 + pct) - s),
          pnl := (numOr (quoteSel quote Quote.ltp row.ltp) 0 +
            numOr (quoteSel quote Quote.delta row.delta) 0 * (s * (1 + pct) - s) +
            0.5 * numOr (quoteSel quote Quote.gamma row.diag_gamma) 0 *
              (s * (1 + pct) - s) * (s * (1 + pct) - s)) - e,
          pnlPct := ((numOr (quoteSel quote Quote.ltp row.ltp) 0 +
            numOr (quoteSel quote Quote.delta row.delta) 0 * (s * (1 + pct) - s) +
            0.5 * numOr (quoteSel quote Quote.gamma row.diag_gamma) 0 *
              (s * (1 + pct) - s) * (s * (1 + pct) - s)) - e) / e * 100 }) ∧
    (pnlTable pnlExampleRow none)[6]?.map (fun r => round2 r.priceEst) =
      some 257.51 ∧
    (pnlTable pnlExampleRow none)[6]?.map (fun r => round2 r.pnl) = some 141.51 ∧
    (pnlTable pnlExampleRow none)[6]?.map ScenarioRow.pct = some 0.01 ∧
    (∀ row2 : PnlRow, ∀ quote2 : Option Quote,
      (numTv (jsOrNum row2.spot (jsOrNum row2.underlying_ltp row2.underlyingLtp)) = false ∨
       numTv row2.entry_price = false ∨
       numOr (quoteSel quote2 Quote.ltp row2.ltp) 0 = 0) →
      pnlTable row2 quote2 = []) := by
  have hguard : (!(numTv (some s)) || !(numTv (some e)) ||
      (numOr (quoteSel quote Quote.ltp row.ltp) 0 == 0)) = false := by
    simp [numTv, hs0, he0, hp0]
  have hmain : pnlTable row quote = scenarioSteps.map (fun pct =>
      { pct := pct, S := s * (1 + pct),
        priceEst := numOr (quoteSel quote Quote.ltp row.ltp) 0 +
          numOr (quoteSel quote Quote.delta row.delta) 0 * (s * (1 + pct) - s) +
          0.5 * numOr (quoteSel quote Quote.gamma row.diag_gamma) 0 *
            (s * (1 + pct) - s) * (s * (1 + pct) - s),
        pnl := (numOr (quoteSel quote Quote.ltp row.ltp) 0 +
          numOr (quoteSel quote Quote.delta row.delta) 0 * (s * (1 + pct) - s) +
          0.5 * numOr (quoteSel quote Quote.gamma row.diag_gamma) 0 *
            (s * (1 + pct) - s) * (s * (1 + pct) - s)) - e,
        pnlPct := ((numOr (quoteSel quote Quote.ltp row.ltp) 0 +
          numOr (quoteSel quote Quote.delta row.delta) 0 * (s * (1 + pct) - s) +
          0.5 * numOr (quoteSel quote Quote.gamma row.diag_gamma) 0 *
            (s * (1 + pct) - s) * (s * (1 + pct) - s)) - e) / e * 100 }) := by
    simp only [pnlTable, hs, he, Option.getD_some, hguard, Bool.false_eq_true,
      if_false]
  refine ⟨?_, ?_, ?_, by with_unfolding_all rfl, by with_unfolding_all rfl,
    by with_unfolding_all rfl, ?_⟩
  · rw [hmain, List.map_map]
    exact List.map_id scenarioSteps
  · rw [hmain, List.length_map]
    rfl
  · intro i
    rw [hmain, List.getElem?_map]
  · intro row2 quote2 h2
    rcases h2 with h2 | h2 | h2 <;> simp [pnlTable, h2]

/-- Witness for `c6_scenario_table` at the spec example row. -/
theorem c6_scenario_table_witness :
    (pnlTable pnlExampleRow none).length = 9 :=
  (c6_scenario_table pnlExampleRow none 24500 116
    (by with_unfolding_all rfl) (by norm_num) rfl (by norm_num)
    (by with_unfolding_all decide)).2.1

/-! ## Recommendation rows, invalidation and ranking (`_RecoPage.jsx`) -/

/-- A recommendation row as the page reads it.  `symbol`, `strike`, `side`
and `expiry` are kept in their template-literal string rendering (they are
only ever concatenated into the identity key); `sell_by` may also live in
the diagnostics bag under two spellings. -/
structure Row where
  symbol : String
  strike : String
  side : String
  expiry : String
  confidence : Option ℚ
  action : String
  sell_by : Option String
  diag_sell_by : Option String
  diag_sellBy : Option String
deriving DecidableEq

/-- A row together with the enrichment fields the pipeline spreads onto it
(`__reviewerApproved`, `__reviewerRejected`, `__rejectionReason`,
`__expired`); absent JS fields are falsy, modelled by the `false`/`none`
defaults. -/
structure MarkedRow where
  row : Row
  approved : Bool := false
  rejected : Bool := false
  reason : Option String := none
  expired : Bool := false
deriving DecidableEq

/-- JS `r?.sell_by ?? r?.diagnostics?.sell_by ?? r?.diagnostics?.sellBy`. -/
def getSellBy (r : Row) : Option String :=
  (r.sell_by.orElse fun _ => r.diag_sell_by).orElse fun _ => r.diag_sellBy

/-- Digit value of a character. -/
def dv (c : Char) : Nat := c.toNat - '0'.toNat

/-- The regex match `^(\d{4})-(\d{2})-(\d{2})$` on the trimmed string,
returning the year, month and day components. -/
def parseYmd (s : String) : Option (Nat × Nat × Nat) :=
  match (jsTrim s).toList with
  | [a, b, c, d, h1, e, f, h2, g, h] =>
    if a.isDigit && b.isDigit && c.isDigit && d.isDigit && (h1 == '-') &&
        e.isDigit && f.isDigit && (h2 == '-') && g.isDigit && h.isDigit then
      some (dv a * 1000 + dv b * 100 + dv c * 10 + dv d,
            dv e * 10 + dv f,
            dv g * 10 + dv h)
    else none
  | _ => none

/-- Embedding of `ymdToNum` (`_RecoPage.jsx`): `null` for a falsy or
non-matching input, else `Number(m[1] + m[2] + m[3])`, the concatenated
year-month-day digits, which equals `y * 10000 + mo * 100 + d`. -/
def ymdToNum (s : Option String) : Option Nat :=
  match s with
  | none => none
  | some str =>
    if str = "" then none
    else (parseYmd str).map fun x => x.1 * 10000 + x.2.1 * 100 + x.2.2

/-- JS `!!(today && sb && today > sb)` on the two parsed date numbers. -/
def jsExpired (today sb : Option Nat) : Bool :=
  match today, sb with
  | some t, some s => (t != 0) && (s != 0) && decide (s < t)
  | _, _ => false

/-- The per-row invalidation step of `RecoPage.rows`:
`{ ...r, __expired, sell_by: getSellBy(r) ?? r?.sell_by ?? null }`.
`basis` is the resolved report date `asOf || latest || todayYmd()`; the
wall-clock fallback is resolved by the caller and passed in here. -/
def markExpired (basis : String) (m : MarkedRow) : MarkedRow :=
  let today := ymdToNum (some basis)
  let sb := ymdToNum (getSellBy m.row)
  { m with
    expired := jsExpired today sb,
    row := { m.row with sell_by := (getSellBy m.row).orElse fun _ => m.row.sell_by } }

/-- The reviewer tier of the sort comparator:
`a.__reviewerApproved ? 2 : a.__reviewerRejected ? 0 : 1`. -/
def tier (m : MarkedRow) : ℕ :=
  if m.approved then 2 else if m.rejected then 0 else 1

/-- The confidence key of the sort comparator: `Number(a.confidence) || 0`. -/
def confKey (m : MarkedRow) : ℚ := numOr m.row.confidence 0

/-- The sort comparator as a boolean "a may precede b" relation: the JS
comparator returns a nonpositive number exactly when the tier of `a` is
higher, or the tiers are equal and the confidence of `a` is at least that
of `b`. -/
def rowLe (a b : MarkedRow) : Bool :=
  decide (tier b < tier a) || (decide (tier a = tier b) && decide (confKey b ≤ confKey a))

/-- `Array.prototype.sort` with the reviewer-status/confidence comparator.
ECMAScript 2019 requires the sort to be stable, so the embedding is a
stable merge sort under `rowLe`. -/
def recoSort (l : List MarkedRow) : List MarkedRow := l.mergeSort rowLe

/-- The full `RecoPage.rows` memo over already-picked rows: invalidate
against the report date, then stable-sort by reviewer status and
confidence. -/
def recoRows (basis : String) (raw : List MarkedRow) : List MarkedRow :=
  recoSort (raw.map (markExpired basis))

/-- The action shown in the table: `<Badge action={isExpired ? "HOLD" :
r.action} />`. -/
def displayedAction (m : MarkedRow) : String :=
  if m.expired then "HOLD" else m.row.action

/-- The confidence shown in the table:
`isRejected ? 0 : (r.confidence || 0)`. -/
def displayConfidence (m : MarkedRow) : ℚ :=
  if m.rejected then 0 else numOr m.row.confidence 0

/-- A well-formed calendar date string: it matches the
`YYYY-MM-DD` digit pattern and carries a plausible month and day. -/
def wellFormedYmd (s : String) : Prop :=
  ∃ y mo d, parseYmd s = some (y, mo, d) ∧
    1 ≤ mo ∧ mo ≤ 12 ∧ 1 ≤ d ∧ d ≤ 31

/-- Helper: a well-formed date parses to a positive numeric key. -/
theorem ymdToNum_pos_of_wellFormed {s : String} (h : wellFormedYmd s) :
    ∃ n, ymdToNum (some s) = some n ∧ 0 < n := by
  obtain ⟨y, mo, d, hp, hmo1, _, _, _⟩ := h
  have hne : s ≠ "" := by
    intro he
    rw [he] at hp
    simp [parseYmd, jsTrim, isWsChar] at hp
  refine ⟨y * 10000 + mo * 100 + d, ?_, by omega⟩
  simp [ymdToNum, hne, hp]

/-- Claim C7: for well-formed report and sell-by dates the expired flag is
the strict comparison of the concatenated-digit numerics (the sell-by day
itself is still valid), expired rows stay in the output (the pipeline maps
and sorts, never filters), their displayed action is coerced to `HOLD`,
and at the boundary `2025-12-18`/`2025-12-18` is not expired while
`2025-12-19`/`2025-12-18` is. -/
theorem c7_expiry_boundary (todayStr sbStr : String) (m : MarkedRow)
    (hT : wellFormedYmd todayStr) (hS : wellFormedYmd sbStr)
    (hrow : getSellBy m.row = some sbStr) :
    (∀ tn sn : Nat, ymdToNum (some todayStr) = some tn →
      ymdToNum (some sbStr) = some sn →
      (markExpired todayStr m).expired = decide (sn < tn)) ∧
    (todayStr = sbStr → (markExpired todayStr m).expired = false) ∧
    ((markExpired todayStr m).expired = true →
      displayedAction (markExpired todayStr m) = "HOLD") ∧
    (∀ raw : List MarkedRow, (recoRows todayStr raw).length = raw.length) ∧
    jsExpired (ymdToNum (some "2025-12-18")) (ymdToNum (some "2025-12-18")) = false ∧
    jsExpired (ymdToNum (some "2025-12-19")) (ymdToNum (some "2025-12-18")) = true := by
  obtain ⟨tn0, htn0, htp⟩ := ymdToNum_pos_of_wellFormed hT
  obtain ⟨sn0, hsn0, hsp⟩ := ymdToNum_pos_of_wellFormed hS
  refine ⟨?_, ?_, ?_, ?_, by decide, by decide⟩
  · intro tn sn htn hsn
    rw [htn0] at htn
    rw [hsn0] at hsn
    cases htn
    cases hsn
    simp only [markExpired, hrow, htn0, hsn0, jsExpired]
    have h1 : (tn0 != 0) = true := by simpa using Nat.pos_iff_ne_zero.mp htp
    have h2 : (sn0 != 0) = true := by simpa using Nat.pos_iff_ne_zero.mp hsp
    simp [h1, h2]
  · intro he
    subst he
    simp only [markExpired, hrow, htn0, jsExpired]
    simp
  · intro hexp
    simp [displayedAction, hexp]
  · intro raw
    unfold recoRows recoSort
    rw [(List.mergeSort_perm _ rowLe).length_eq, List.length_map]

/-- A concrete row whose sell-by date is `2025-12-18`. -/
def sellByRow : MarkedRow :=
  { row := { symbol := "NIFTY", strike := "24500", side := "CE", expiry := "06-JAN-2026",
             confidence := some 0.45, action := "BUY", sell_by := some "2025-12-18",
             diag_sell_by := none, diag_sellBy := none } }

/-- Witness for `c7_expiry_boundary`: the day after the sell-by date, the
row is expired. -/
theorem c7_expiry_boundary_witness :
    (markExpired "2025-12-19" sellByRow).expired = decide ((20251218 : ℕ) < 20251219) :=
  (c7_expiry_boundary "2025-12-19" "2025-12-18" sellByRow
    ⟨2025, 12, 19, by decide, by decide, by decide, by decide, by decide⟩
    ⟨2025, 12, 18, by decide, by decide, by decide, by decide, by decide⟩
    rfl).1 20251219 20251218 (by decide) (by decide)

/-- Claim C10: a sell-by that is absent or fails the `YYYY-MM-DD` pattern
parses to `null`, and the truthiness guard then leaves the row not expired
for every report date; the parser and the flag computation are total, so
nothing is thrown. -/
theorem c10_malformed_sellby (m : MarkedRow) (basis : String)
    (hmal : ymdToNum (getSellBy m.row) = none) :
    (markExpired basis m).expired = false ∧
    (∀ s : String, parseYmd s = none → ymdToNum (some s) = none) := by
  constructor
  · simp only [markExpired, hmal]
    cases ymdToNum (some basis) <;> rfl
  · intro s hs
    by_cases he : s = ""
    · simp [ymdToNum, he]
    · simp [ymdToNum, he, hs]

/-- A concrete row whose sell-by is spelled `DD-MM-YYYY`, which does not
match the parser pattern. -/
def badSellByRow : MarkedRow :=
  { row := { symbol := "NIFTY", strike := "24500", side := "CE", expiry := "06-JAN-2026",
             confidence := some 0.45, action := "BUY", sell_by := some "18-12-2025",
             diag_sell_by := none, diag_sellBy := none } }

/-- Witness for `c10_malformed_sellby` on the `DD-MM-YYYY` spelling. -/
theorem c10_malformed_sellby_witness :
    (markExpired "2025-12-19" badSellByRow).expired = false :=
  (c10_malformed_sellby badSellByRow "2025-12-19" (by decide)).1

/-- A rejected row whose stored confidence is 0.42. -/
def rejectedRow42 : MarkedRow :=
  { row := { symbol := "NIFTY", strike := "24500", side := "CE", expiry := "06-JAN-2026",
             confidence := some 0.42, action := "BUY", sell_by := none,
             diag_sell_by := none, diag_sellBy := none },
    rejected := true }

/-- Claim C9: the rendered confidence of a rejected entry is forced to 0
while the record itself is untouched (the transform is a pure read), and a
non-rejected entry renders its stored confidence; concretely, the rejected
row storing 0.42 renders 0 and still carries 0.42. -/
theorem c9_display_confidence (m : MarkedRow) :
    (m.rejected = true → displayConfidence m = 0) ∧
    (∀ c : ℚ, m.rejected = false → m.row.confidence = some c →
      displayConfidence m = c) ∧
    displayConfidence rejectedRow42 = 0 ∧
    rejectedRow42.row.confidence = some 0.42 := by
  refine ⟨?_, ?_, by with_unfolding_all rfl, rfl⟩
  · intro h
    simp [displayConfidence, h]
  · intro c h1 h2
    by_cases hc : c = 0 <;> simp [displayConfidence, h1, h2, numOr, hc]

/-- Witness for `c9_display_confidence` at the concrete rejected row. -/
theorem c9_display_confidence_witness :
    displayConfidence rejectedRow42 = 0 :=
  (c9_display_confidence rejectedRow42).1 rfl

/-- The comparator relation spelled as a proposition. -/
theorem rowLe_iff (a b : MarkedRow) :
    rowLe a b = true ↔
      tier b < tier a ∨ (tier a = tier b ∧ confKey b ≤ confKey a) := by
  simp [rowLe]

/-- The comparator is transitive. -/
theorem rowLe_trans (a b c : MarkedRow)
    (h1 : rowLe a b = true) (h2 : rowLe b c = true) : rowLe a c = true := by
  rw [rowLe_iff] at h1 h2 ⊢
  rcases h1 with h1 | ⟨h1e, h1c⟩
  · rcases h2 with h2 | ⟨h2e, _⟩
    · exact Or.inl (h2.trans h1)
    · exact Or.inl (h2e ▸ h1)
  · rcases h2 with h2 | ⟨h2e, h2c⟩
    · exact Or.inl (h1e ▸ h2)
    · exact Or.inr ⟨h1e.trans h2e, h2c.trans h1c⟩

/-- The comparator is total. -/
theorem rowLe_total (a b : MarkedRow) :
    (rowLe a b || rowLe b a) = true := by
  simp only [Bool.or_eq_true, rowLe_iff]
  rcases lt_trichotomy (tier a) (tier b) with h | h | h
  · exact Or.inr (Or.inl h)
  · rcases le_total (confKey b) (confKey a) with hc | hc
    · exact Or.inl (Or.inr ⟨h, hc⟩)
    · exact Or.inr (Or.inr ⟨h.symm, hc⟩)
  · exact Or.inl (Or.inl h)

/-- Claim C8: the ranking is a permutation of its input, it is sorted by
tier descending then confidence descending, and it is stable: two entries
with equal tier and equal confidence keep their input order (expressed as
preservation of two-element sublists). -/
theorem c8_stable_ranking (l : List MarkedRow) :
    (recoSort l).Perm l ∧
    List.Pairwise
      (fun a b => tier b < tier a ∨ (tier a = tier b ∧ confKey b ≤ confKey a))
      (recoSort l) ∧
    (∀ x y : MarkedRow, tier x = tier y → confKey x = confKey y →
      List.Sublist [x, y] l → List.Sublist [x, y] (recoSort l)) := by
  refine ⟨List.mergeSort_perm l rowLe, ?_, ?_⟩
  · have hs := List.sorted_mergeSort rowLe_trans rowLe_total l
    exact hs.imp fun h => (rowLe_iff _ _).mp h
  · intro x y ht hc hsub
    apply List.sublist_mergeSort rowLe_trans rowLe_total _ hsub
    have hxy : rowLe x y = true :=
      (rowLe_iff x y).mpr (Or.inr ⟨ht, le_of_eq hc.symm⟩)
    exact List.pairwise_pair.mpr hxy

/-- Two distinct rows that tie on every sort key. -/
def tieRowA : MarkedRow :=
  { row := { symbol := "AAA", strike := "100", side := "CE", expiry := "06-JAN-2026",
             confidence := some 0.3, action := "BUY", sell_by := none,
             diag_sell_by := none, diag_sellBy := none } }

/-- Second tied row, differing only in the symbol. -/
def tieRowB : MarkedRow :=
  { row := { symbol := "BBB", strike := "100", side := "CE", expiry := "06-JAN-2026",
             confidence := some 0.3, action := "BUY", sell_by := none,
             diag_sell_by := none, diag_sellBy := none } }

/-- Witness for `c8_stable_ranking`: the tied pair keeps its input order. -/
theorem c8_stable_ranking_witness :
    List.Sublist [tieRowA, tieRowB] (recoSort [tieRowA, tieRowB]) :=
  (c8_stable_ranking [tieRowA, tieRowB]).2.2 tieRowA tieRowB rfl
    (by with_unfolding_all rfl) (List.Sublist.refl _)

/-! ## Reviewer merge (`pickOptionsRows`, `OptionsRecommendations.jsx`) -/

/-- An entry of the reviewer's rejected list: a row plus its reason. -/
structure RejectedItem where
  row : Row
  reason : String
deriving DecidableEq

/-- The `payload.reviewer` object; either list may be missing. -/
structure ReviewerBlock where
  approved : Option (List Row)
  rejected : Option (List RejectedItem)
deriving DecidableEq

/-- The object-shaped payload with all the fallback fields
`pickOptionsRows` probes (`report`/`data`/`result` wrappers flattened to
their one probed field). -/
structure PayloadObj where
  reviewer : Option ReviewerBlock
  recommender : Option (List Row)
  final : Option (List Row)
  recommended_options : Option (List Row)
  report_recommended_options : Option (List Row)
  data_recommended_options : Option (List Row)
  result_recommended_options : Option (List Row)
deriving DecidableEq

/-- A payload is either a plain array (old format) or an object. -/
inductive Payload where
  | arr (rows : List Row)
  | obj (o : PayloadObj)
deriving DecidableEq

/-- The identity key `${r.symbol}-${r.strike}-${r.side}-${r.expiry}`. -/
def keyOf (r : Row) : String :=
  r.symbol ++ "-" ++ r.strike ++ "-" ++ r.side ++ "-" ++ r.expiry

/-- JS `a || b` on possibly-missing arrays: every array, even an empty
one, is truthy. -/
def jsOrList (a b : Option (List Row)) : Option (List Row) :=
  if a.isSome then a else b

/-- JS `Map.get` over the insertion list built by successive `Map.set`
calls: the last insertion for a key wins. -/
def jsMapGet (m : List (String × String)) (k : String) : Option String :=
  m.reverse.lookup k

/-- Embedding of `pickOptionsRows` (`OptionsRecommendations.jsx`). -/
def pickOptionsRows (payload : Option Payload) : List MarkedRow :=
  match payload with
  | none => []
  | some (.arr rows) => rows.map fun r => { row := r }
  | some (.obj o) =>
    match o.reviewer with
    | some rb =>
      let approved : List Row := (jsOrList rb.approved o.final).getD []
      let rows0 : List MarkedRow := approved.map fun r => { row := r }
      let approvedKeys : List String := approved.map keyOf
      let rejectedMap : List (String × String) :=
        (rb.rejected.getD []).map fun it => (keyOf it.row, it.reason)
      let allRecos : List Row := o.recommender.getD []
      let pushed : List MarkedRow :=
        (allRecos.filter fun r =>
          !(approvedKeys.contains (keyOf r)) &&
            (jsMapGet rejectedMap (keyOf r)).isSome).map
          fun r => { row := r, rejected := true,
                     reason := jsMapGet rejectedMap (keyOf r) }
      (rows0 ++ pushed).map fun mr =>
        if approvedKeys.contains (keyOf mr.row) then { mr with approved := true }
        else mr
    | none =>
      match o.final with
      | some l => l.map fun r => { row := r }
      | none =>
        match o.recommended_options with
        | some l => l.map fun r => { row := r }
        | none =>
          match o.report_recommended_options with
          | some l => l.map fun r => { row := r }
          | none =>
            match o.data_recommended_options with
            | some l => l.map fun r => { row := r }
            | none =>
              match o.result_recommended_options with
              | some l => l.map fun r => { row := r }
              | none => []

/-- Helper: a key present among the first components is found by
`List.lookup`. -/
theorem lookup_isSome_of_mem_keys (l : List (String × String)) (k : String)
    (h : k ∈ l.map Prod.fst) : (l.lookup k).isSome = true := by
  induction l with
  | nil => simp at h
  | cons p rest ih =>
    rw [List.map_cons, List.mem_cons] at h
    by_cases he : k = p.1
    · simp [List.lookup, he]
    · have : k ∈ rest.map Prod.fst := by
        rcases h with h | h
        · exact absurd h he
        · exact h
      simp [List.lookup, beq_false_of_ne he, this, ih this]

/-- A lone candidate the reviewer never decided on. -/
def soloCandidate : Row :=
  { symbol := "NIFTY", strike := "26100", side := "CE", expiry := "06-JAN-2026",
    confidence := some 0.4, action := "BUY", sell_by := none,
    diag_sell_by := none, diag_sellBy := none }

/-- A structured payload whose reviewer returned empty decision lists even
though the proposer produced one candidate. -/
def droppedPayload : PayloadObj :=
  { reviewer := some { approved := some [], rejected := some [] },
    recommender := some [soloCandidate],
    final := none, recommended_options := none,
    report_recommended_options := none, data_recommended_options := none,
    result_recommended_options := none }

/-- Claim C2 counterexample: `pickOptionsRows` only re-adds proposer
candidates whose key is in the rejected map; a candidate with no reviewer
decision is silently dropped, so the merged output is not a partition of
the candidate set. -/
theorem c2_counterexample :
    droppedPayload.recommender = some [soloCandidate] ∧
    pickOptionsRows (some (Payload.obj droppedPayload)) = [] ∧
    ¬ ((pickOptionsRows (some (Payload.obj droppedPayload))).map
        MarkedRow.row).Perm [soloCandidate] := by
  have hempty : pickOptionsRows (some (Payload.obj droppedPayload)) = [] := by
    with_unfolding_all rfl
  refine ⟨rfl, hempty, fun h => ?_⟩
  rw [hempty] at h
  have := h.length_eq
  simp at this

/-- Claim C2, amended: when the reviewer decision lists do partition the
proposer candidates (every candidate is either in the approved list or,
keyed, in the rejected list, and candidate keys are pairwise distinct),
the merged output contains every candidate exactly once and each output
row is marked approved or rejected, exclusively. -/
theorem c2_amended (o : PayloadObj) (rb : ReviewerBlock) (cands : List Row)
    (v : Row → Bool)
    (hrev : o.reviewer = some rb)
    (hrec : o.recommender = some cands)
    (happ : rb.approved = some (cands.filter v))
    (hrej : (rb.rejected.getD []).map RejectedItem.row =
      cands.filter fun r => !(v r))
    (hnd : (cands.map keyOf).Nodup) :
    ((pickOptionsRows (some (Payload.obj o))).map MarkedRow.row).Perm cands ∧
    (∀ mr ∈ pickOptionsRows (some (Payload.obj o)),
      (mr.approved = true ∧ mr.rejected = false) ∨
      (mr.approved = false ∧ mr.rejected = true)) ∧
    (∀ r ∈ cands,
      ((pickOptionsRows (some (Payload.obj o))).map MarkedRow.row).count r = 1) := by
  have hinj := List.inj_on_of_nodup_map hnd
  -- the approved-keys membership facts
  have fact1 : ∀ r ∈ cands, v r = true →
      ((cands.filter v).map keyOf).contains (keyOf r) = true := by
    intro r hr hv
    have : keyOf r ∈ (cands.filter v).map keyOf :=
      List.mem_map_of_mem keyOf (List.mem_filter.mpr ⟨hr, hv⟩)
    simpa using this
  have fact2 : ∀ r ∈ cands, v r = false →
      ((cands.filter v).map keyOf).contains (keyOf r) = false := by
    intro r hr hv
    have : keyOf r ∉ (cands.filter v).map keyOf := by
      intro hmem
      obtain ⟨a, ha, hak⟩ := List.mem_map.mp hmem
      obtain ⟨hac, hav⟩ := List.mem_filter.mp ha
      have : a = r := hinj hac hr hak
      rw [this] at hav
      rw [hav] at hv
      exact Bool.true_eq_false.mp hv
    simpa using this
  have fact3 : ∀ r ∈ cands, v r = false →
      (jsMapGet ((rb.rejected.getD []).map fun it => (keyOf it.row, it.reason))
        (keyOf r)).isSome = true := by
    intro r hr hv
    have hk : keyOf r ∈
        ((rb.rejected.getD []).map fun it => (keyOf it.row, it.reason)).map
          Prod.fst := by
      have h1 : ((rb.rejected.getD []).map fun it => (keyOf it.row, it.reason)).map
          Prod.fst = (cands.filter fun x => !(v x)).map keyOf := by
        rw [List.map_map, show (Prod.fst ∘ fun it : RejectedItem =>
          (keyOf it.row, it.reason)) = fun it => keyOf it.row from rfl,
          show (fun it : RejectedItem => keyOf it.row) =
            (keyOf ∘ RejectedItem.row) from rfl,
          ← List.map_map, hrej]
      rw [h1]
      exact List.mem_map_of_mem keyOf
        (List.mem_filter.mpr ⟨hr, by rw [hv]; rfl⟩)
    unfold jsMapGet
    apply lookup_isSome_of_mem_keys
    rw [List.map_reverse, List.mem_reverse]
    exact hk
  -- the filter over the proposer list keeps exactly the rejected candidates
  have hpred : ∀ r ∈ cands,
      (!(((cands.filter v).map keyOf).contains (keyOf r)) &&
        (jsMapGet ((rb.rejected.getD []).map fun it => (keyOf it.row, it.reason))
          (keyOf r)).isSome) = !(v r) := by
    intro r hr
    cases hv : v r with
    | true => rw [fact1 r hr hv]; rfl
    | false => rw [fact2 r hr hv, fact3 r hr hv]; rfl
  -- the closed form of the merged output
  have hout : pickOptionsRows (some (Payload.obj o)) =
      (cands.filter v).map (fun r =>
        { row := r, approved := true, rejected := false, reason := none,
          expired := false }) ++
      (cands.filter fun r => !(v r)).map (fun r =>
        { row := r, approved := false, rejected := true,
          reason := jsMapGet ((rb.rejected.getD []).map fun it =>
            (keyOf it.row, it.reason)) (keyOf r),
          expired := false }) := by
    simp only [pickOptionsRows, hrev, hrec, happ, jsOrList, Option.isSome_some,
      if_true, Option.getD_some, List.filter_congr hpred, List.map_append,
      List.map_map]
    congr 1
    · apply List.map_congr_left
      intro a ha
      obtain ⟨hac, hav⟩ := List.mem_filter.mp ha
      simp only [Function.comp_apply, fact1 a hac hav]
      rfl
    · apply List.map_congr_left
      intro r hrm
      obtain ⟨hrc, hrv⟩ := List.mem_filter.mp hrm
      have hvf : v r = false := by
        cases h : v r
        · rfl
        · rw [h] at hrv; exact absurd hrv (by simp)
      simp only [Function.comp_apply, fact2 r hrc hvf]
      rfl
  have hperm : ((pickOptionsRows (some (Payload.obj o))).map MarkedRow.row).Perm
      cands := by
    rw [hout, List.map_append, List.map_map, List.map_map]
    have h1 : ∀ l : List Row, ∀ f : Row → MarkedRow,
        (∀ r, (f r).row = r) → l.map (MarkedRow.row ∘ f) = l.map id := by
      intro l f hf
      apply List.map_congr_left
      intro a _
      simp [hf a]
    rw [h1 _ _ (fun r => rfl), h1 _ _ (fun r => rfl), List.map_id, List.map_id]
    exact List.filter_append_perm v cands
  refine ⟨hperm, ?_, ?_⟩
  · intro mr hmr
    rw [hout, List.mem_append] at hmr
    rcases hmr with hmr | hmr
    · obtain ⟨a, _, ha⟩ := List.mem_map.mp hmr
      rw [← ha]
      exact Or.inl ⟨rfl, rfl⟩
    · obtain ⟨a, _, ha⟩ := List.mem_map.mp hmr
      rw [← ha]
      exact Or.inr ⟨rfl, rfl⟩
  · intro r hr
    rw [hperm.count_eq r]
    exact List.count_eq_one_of_mem (List.Nodup.of_map keyOf hnd) hr

/-- Witness for `c2_amended`: a two-candidate run, one approved and one
rejected, merges to a partition. -/
theorem c2_amended_witness :
    ((pickOptionsRows (some (Payload.obj
      { reviewer := some
          { approved := some ([soloCandidate, tieRowA.row].filter
              fun r => r.symbol == "NIFTY"),
            rejected := some [{ row := tieRowA.row, reason := "low confidence" }] },
        recommender := some [soloCandidate, tieRowA.row],
        final := none, recommended_options := none,
        report_recommended_options := none, data_recommended_options := none,
        result_recommended_options := none }))).map MarkedRow.row).Perm
      [soloCandidate, tieRowA.row] :=
  (c2_amended _ _ [soloCandidate, tieRowA.row] (fun r => r.symbol == "NIFTY")
    rfl rfl rfl (by with_unfolding_all rfl) (by decide)).1

end StockReco
